import Mathlib

/-!
Verification of the grade-data normalization and ingestion pipeline of the
CourseCounselorAgent repository.

The embedded components, translated from the Python source:
* `smart_forward_fill` — Scripts/BoilerGrades2022Fall.py, forward-fill of
  sparse identity columns (FieldNormalizer).
* percentage coercion (`coerce_pct`) — same script: strip percent and
  less-than characters, then numeric parse with coercion of failures to null.
* `gpa_estimate` — same script: normalized GPA estimate from the mapped
  grade-percentage columns (GPAEstimator).
* `combined_data` — Scripts/CombineAllJSON.py (RecordAggregator).
* `create_new_database` — QueriableStorage/store_db.py (DedupLoader).

Missing values (pandas NaN, JSON null, Python None) are modelled as `none`;
floating-point percentages are modelled as exact rationals `ℚ`.
-/

namespace CourseCounselor

/-! ## FieldNormalizer: smart_forward_fill

Python source (BoilerGrades2022Fall.py, lines 11-20):
```
def smart_forward_fill(series):
    filled = []
    last_value = None
    for val in series:
        if pd.notna(val):
            last_value = val
            filled.append(val)
        else:
            filled.append(last_value)
    return pd.Series(filled, index=series.index)
```
A series cell is `Option α` (`none` = NaN); `last` is the running
`last_value`, initially `none`. -/

def smart_forward_fill (last : Option α) : List (Option α) → List (Option α)
  | [] => []
  | v :: vs =>
    match v with
    | some x => some x :: smart_forward_fill (some x) vs
    | none => last :: smart_forward_fill last vs

/-- The most recent non-missing value at or before index `i` of the series,
together with the fallback `last` when the whole prefix is missing. This is
the specification-side description of forward filling. -/
def prefFill (last : Option α) (l : List (Option α)) (i : Nat) : Option α :=
  match ((l.take (i + 1)).reverse).findSome? id with
  | some x => some x
  | none => last

theorem smart_forward_fill_length (last : Option α) (l : List (Option α)) :
    (smart_forward_fill last l).length = l.length := by
  induction l generalizing last with
  | nil => rfl
  | cons v vs ih =>
    cases v with
    | some x => simp [smart_forward_fill, ih]
    | none => simp [smart_forward_fill, ih]

theorem smart_forward_fill_get (last : Option α) (l : List (Option α))
    (i : Nat) (hi : i < l.length) :
    (smart_forward_fill last l)[i]? = some (prefFill last l i) := by
  induction l generalizing last i with
  | nil => simp at hi
  | cons v vs ih =>
    cases i with
    | zero =>
      cases v with
      | some x => simp [smart_forward_fill, prefFill]
      | none => simp [smart_forward_fill, prefFill]
    | succ j =>
      have hj : j < vs.length := by simpa using hi
      cases v with
      | some x =>
        have := ih (some x) j hj
        simp only [smart_forward_fill, List.getElem?_cons_succ, this]
        have htake : (((some x : Option α) :: vs).take (j + 1 + 1)).reverse
            = ((vs.take (j + 1)).reverse) ++ [some x] := by
          simp [List.take_succ_cons]
        simp only [prefFill, htake, List.findSome?_append]
        cases hfs : (vs.take (j + 1)).reverse.findSome? id with
        | some y => simp
        | none => simp [List.findSome?]
      | none =>
        have := ih last j hj
        simp only [smart_forward_fill, List.getElem?_cons_succ, this]
        have htake : (((none : Option α) :: vs).take (j + 1 + 1)).reverse
            = ((vs.take (j + 1)).reverse) ++ [(none : Option α)] := by
          simp [List.take_succ_cons]
        simp only [prefFill, htake, List.findSome?_append]
        cases hfs : (vs.take (j + 1)).reverse.findSome? id with
        | some y => simp
        | none => simp [List.findSome?]

theorem prefFill_of_head_some (l : List (Option α)) (x : α)
    (h : l.head? = some (some x)) (i : Nat) :
    (prefFill none l i).isSome := by
  cases l with
  | nil => simp at h
  | cons v vs =>
    have hv : v = some x := by simpa using h
    subst hv
    unfold prefFill
    cases hfs : (((some x :: vs).take (i + 1)).reverse).findSome? id with
    | some y => simp
    | none =>
      exfalso
      have hmem : (some x : Option α) ∈ ((some x :: vs).take (i + 1)).reverse := by
        simp [List.take_succ_cons]
      have := List.findSome?_eq_none_iff.mp hfs (some x) hmem
      simp at this

theorem prefFill_of_get_some (l : List (Option α)) (i : Nat) (x : α)
    (h : l[i]? = some (some x)) (last : Option α) :
    prefFill last l i = some x := by
  have htake : l.take (i + 1) = l.take i ++ [some x] := by
    rw [List.take_succ, h]
    rfl
  unfold prefFill
  rw [htake]
  simp [List.findSome?_append, List.findSome?]

theorem prefFill_none_eq_findSome (l : List (Option α)) (i : Nat) :
    prefFill none l i = ((l.take (i + 1)).reverse).findSome? id := by
  unfold prefFill
  cases h : ((l.take (i + 1)).reverse).findSome? id with
  | some x => simp
  | none => simp

/-- C4: for every record sequence whose first record has its identity field
present, after forward-fill every output cell is non-null, equals the nearest
preceding non-blank value (scanning in original order), and non-missing
values are left unchanged. The source applies `smart_forward_fill` to each
of the five identity columns, so this per-column statement covers all five. -/
theorem c4_forward_fill (l : List (Option String)) (x : String)
    (h : l.head? = some (some x)) (i : Nat) (hi : i < l.length) :
    (∃ y, (smart_forward_fill none l)[i]? = some (some y))
    ∧ (smart_forward_fill none l)[i]? = some (((l.take (i + 1)).reverse).findSome? id)
    ∧ (∀ y, l[i]? = some (some y) → (smart_forward_fill none l)[i]? = some (some y)) := by
  have hget := smart_forward_fill_get none l i hi
  refine ⟨?_, ?_, ?_⟩
  · have hsome := prefFill_of_head_some l x h i
    obtain ⟨y, hy⟩ := Option.isSome_iff_exists.mp hsome
    exact ⟨y, by rw [hget, hy]⟩
  · rw [hget, prefFill_none_eq_findSome]
  · intro y hy
    have : l[i]? = some (some y) := hy
    rw [hget, prefFill_of_get_some l i y this none]

theorem c4_forward_fill_witness :
    ([some "MA", none, some "CS"] : List (Option String)).head? = some (some "MA")
    ∧ 1 < ([some "MA", none, some "CS"] : List (Option String)).length
    ∧ ((∃ y, (smart_forward_fill none
          ([some "MA", none, some "CS"] : List (Option String)))[1]? = some (some y))
      ∧ (smart_forward_fill none
          ([some "MA", none, some "CS"] : List (Option String)))[1]?
          = some (((([some "MA", none, some "CS"] : List (Option String)).take 2).reverse).findSome? id)
      ∧ (∀ y, ([some "MA", none, some "CS"] : List (Option String))[1]? = some (some y) →
          (smart_forward_fill none
            ([some "MA", none, some "CS"] : List (Option String)))[1]? = some (some y))) :=
  ⟨rfl, by decide, c4_forward_fill [some "MA", none, some "CS"] "MA" rfl 1 (by decide)⟩

/-- C8 counterexample: on a sequence whose leading identity cell is missing,
`smart_forward_fill` raises no error at all — it is a total function that
returns the leading cell still missing (`none`), so the normalizer emits an
output record with a missing identity field instead of failing the term. -/
theorem c8_counterexample :
    smart_forward_fill (none : Option String) [none, some "MA"] = [none, some "MA"] := rfl

/-- C8 amended: when the leading run of a column is fully missing, the code
does not fail with any error; `smart_forward_fill` returns the run still
missing — every cell of the leading missing run is `none` in the output. -/
theorem c8_amended (l : List (Option String)) (k j : Nat) (hj : j < k)
    (hk : ∀ m, m < k → l[m]? = some none) :
    (smart_forward_fill none l)[j]? = some none := by
  have hjl : j < l.length := by
    have := hk j hj
    exact (List.getElem?_eq_some.mp this).1
  rw [smart_forward_fill_get none l j hjl, prefFill_none_eq_findSome]
  have hnone : ((l.take (j + 1)).reverse).findSome? id = none := by
    rw [List.findSome?_eq_none_iff]
    intro o ho
    have ho' : o ∈ l.take (j + 1) := by
      exact List.mem_reverse.mp ho
    obtain ⟨m, hm, hmo⟩ := List.mem_iff_getElem.mp ho'
    have hmj : m < j + 1 := lt_of_lt_of_le hm (by simp)
    have hmk : m < k := lt_of_lt_of_le hmj hj
    have hml : m < l.length := (List.getElem?_eq_some.mp (hk m hmk)).1
    have hlm : l[m] = none := by
      have := hk m hmk
      simpa [List.getElem?_eq_getElem hml] using this
    have ho2 : o = none := by
      rw [← hmo, List.getElem_take, hlm]
    simp [ho2]
  rw [hnone]

theorem c8_amended_witness :
    (1 < 2 ∧ (∀ m, m < 2 → ([none, none, some "x"] : List (Option String))[m]? = some none))
    ∧ (smart_forward_fill none ([none, none, some "x"] : List (Option String)))[1]? = some none :=
  ⟨⟨by decide, by intro m hm; interval_cases m <;> rfl⟩,
    c8_amended [none, none, some "x"] 2 1 (by decide)
      (by intro m hm; interval_cases m <;> rfl)⟩

/-! ## FieldNormalizer: percentage coercion

Python source (BoilerGrades2022Fall.py, lines 83-85):
```
cleaned_series = df[col].astype(str).str.replace('%', '').str.replace('<', '')
df[col] = pd.to_numeric(cleaned_series, errors='coerce')
```
`str.replace(c, '')` deletes every occurrence of the character `c`;
`pd.to_numeric(..., errors='coerce')` parses a decimal number and turns any
unparsable value into NaN (missing, `none` here). -/

def removeChar (c : Char) (s : String) : String :=
  String.mk (s.data.filter (fun d => d ≠ c))

def natOfDigits (cs : List Char) : Nat :=
  cs.foldl (fun acc c => acc * 10 + (c.toNat - 48)) 0

def parseNatChars (cs : List Char) : Option Nat :=
  if cs ≠ [] ∧ cs.all Char.isDigit then some (natOfDigits cs) else none

/-- Split a character list on the decimal dot, like `"a.b".split(".")`. -/
def splitOnDot : List Char → List (List Char)
  | [] => [[]]
  | c :: cs =>
    let rest := splitOnDot cs
    if c = '.' then [] :: rest
    else
      match rest with
      | r :: rs => (c :: r) :: rs
      | [] => [[c]]

/-- The magnitude of a decimal literal: integer part, optional fractional
part after a single dot; at least one of the two parts must be nonempty and
both must be all digits, else the value is unparsable. -/
def magOfChars (cs : List Char) : Option ℚ :=
  match splitOnDot cs with
  | [ip] => (parseNatChars ip).map (fun n => (n : ℚ))
  | [ip, fp] =>
    if ip = [] ∧ fp = [] then none
    else
      match (if ip = [] then some 0 else parseNatChars ip),
            (if fp = [] then some 0 else parseNatChars fp) with
      | some i, some f => some ((i : ℚ) + (f : ℚ) / (10 : ℚ) ^ fp.length)
      | _, _ => none
  | _ => none

/-- Decimal-number parsing as performed by `pd.to_numeric(..., errors='coerce')`
on a cell: optional leading minus sign, integer part, optional fractional part
after a single dot; anything else (including the empty string) is unparsable
and becomes missing (`none`). -/
def to_numeric (s : String) : Option ℚ :=
  match s.data with
  | '-' :: rest => (magOfChars rest).map (fun v => -v)
  | cs => magOfChars cs

/-- The full percentage coercion of one cell: delete `%`, then delete `<`,
then parse, coercing failures to missing. -/
def coerce_pct (s : String) : Option ℚ :=
  to_numeric (removeChar '<' (removeChar '%' s))

/-- C5: percentage coercion strips the characters `%` and `<` and parses the
remainder as a number; unparsable or empty values become null, never zero:
`"87%" ↦ 87`, `"<1%" ↦ 1`, `"" ↦ none`, `"N/A" ↦ none`, and a reported
`"0%"` stays distinguishable from an unreported value. -/
theorem c5_percentage_coercion :
    (∀ s : String, coerce_pct s
        = to_numeric (String.mk (s.data.filter (fun c => c ≠ '%' ∧ c ≠ '<'))))
    ∧ coerce_pct "87%" = some 87
    ∧ coerce_pct "<1%" = some 1
    ∧ coerce_pct "" = none
    ∧ coerce_pct "N/A" = none
    ∧ coerce_pct "0%" = some 0
    ∧ coerce_pct "0%" ≠ coerce_pct "" := by
  refine ⟨?_, by decide, by decide, by decide, by decide, by decide, by decide⟩
  intro s
  unfold coerce_pct removeChar
  congr 2
  rw [List.filter_filter]
  apply List.filter_congr
  intro c _
  by_cases h1 : c = '%' <;> by_cases h2 : c = '<' <;> simp [h1, h2]

/-! ## GPAEstimator

Python source (BoilerGrades2022Fall.py, lines 90-110):
```
gpa_map = {
    'a_plus_pct': 4.0, 'a_pct': 4.0, 'a_minus_pct': 3.7,
    'b_plus_pct': 3.3, 'b_pct': 3.0, 'b_minus_pct': 2.7,
    'c_plus_pct': 2.3, 'c_pct': 2.0, 'c_minus_pct': 1.7,
    'd_plus_pct': 1.3, 'd_pct': 1.0, 'd_minus_pct': 0.7,
    'f_pct': 0.0, 'e_pct': 0.0, 'withdrawn_failing_pct': 0.0,
}
grade_cols = [col for col in df.columns if col in gpa_map]
df_grades = df[grade_cols].copy()
sum_of_reported_pct = df_grades.sum(axis=1)
sum_of_reported_pct.replace(0, np.nan, inplace=True)
normalized_grades = df_grades.div(sum_of_reported_pct, axis=0)
normalized_grades.fillna(0, inplace=True)
gpa_estimate = (normalized_grades * pd.Series(gpa_map)).sum(axis=1)
```
A record carries the 27 canonical percentage columns produced by the rename
step (grade_labels order); only the 15 columns in `gpa_map` (note: `e_pct`
is among them) enter the estimate. -/

structure GradeRecord where
  a_pct : Option ℚ
  a_minus_pct : Option ℚ
  a_plus_pct : Option ℚ
  audit_pct : Option ℚ
  b_pct : Option ℚ
  b_minus_pct : Option ℚ
  b_plus_pct : Option ℚ
  c_pct : Option ℚ
  c_minus_pct : Option ℚ
  c_plus_pct : Option ℚ
  d_pct : Option ℚ
  d_minus_pct : Option ℚ
  d_plus_pct : Option ℚ
  e_pct : Option ℚ
  f_pct : Option ℚ
  incomplete_pct : Option ℚ
  not_passed_pct : Option ℚ
  no_show_pct : Option ℚ
  pass_pct : Option ℚ
  permanent_incomplete_pct : Option ℚ
  satisfactory_pct : Option ℚ
  satisfactory_incomplete_pct : Option ℚ
  unsatisfactory_pct : Option ℚ
  withdrawn_pct : Option ℚ
  withdrawn_failing_pct : Option ℚ
  withdrawn_never_attended_pct : Option ℚ
  withdrawn_unknown_pct : Option ℚ
deriving DecidableEq

/-- A record with every percentage column missing. -/
def noGrades : GradeRecord :=
  ⟨none, none, none, none, none, none, none, none, none, none, none, none,
   none, none, none, none, none, none, none, none, none, none, none, none,
   none, none, none⟩

/-- A missing percentage contributes 0 to a pandas column sum. -/
def val0 (o : Option ℚ) : ℚ := o.getD 0

/-- The `df_grades` row paired with `gpa_map` points: the columns of the
data frame that occur in `gpa_map`, in data-frame column order. -/
def mappedCols (r : GradeRecord) : List (Option ℚ × ℚ) :=
  [(r.a_pct, 4), (r.a_minus_pct, 3.7), (r.a_plus_pct, 4),
   (r.b_pct, 3), (r.b_minus_pct, 2.7), (r.b_plus_pct, 3.3),
   (r.c_pct, 2), (r.c_minus_pct, 1.7), (r.c_plus_pct, 2.3),
   (r.d_pct, 1), (r.d_minus_pct, 0.7), (r.d_plus_pct, 1.3),
   (r.e_pct, 0), (r.f_pct, 0), (r.withdrawn_failing_pct, 0)]

def sum_of_reported_pct (r : GradeRecord) : ℚ :=
  (mappedCols r).foldl (fun acc p => acc + val0 p.1) 0

/-- One cell of `normalized_grades` after `replace(0, nan)`, `div` and
`fillna(0)`: when the row sum was zero the division yields NaN and `fillna`
turns it into 0; a missing cell likewise divides to NaN and becomes 0;
otherwise the cell is divided by the row sum. -/
def normCell (S : ℚ) (cell : Option ℚ) : ℚ :=
  if S = 0 then 0
  else
    match cell with
    | none => 0
    | some v => v / S

def gpa_estimate (r : GradeRecord) : ℚ :=
  (mappedCols r).foldl
    (fun acc p => acc + normCell (sum_of_reported_pct r) p.1 * p.2) 0

/-- The numerator of the weighted average: reported percentages times points. -/
def weightedSum (r : GradeRecord) : ℚ :=
  (mappedCols r).foldl (fun acc p => acc + val0 p.1 * p.2) 0

/-- Modelled from the specification text of claim C2 for comparison with the
code: the point map exactly as the claim lists it — fourteen entries, with no
entry for the E grade, so E is excluded from numerator and denominator. -/
def specMappedCols (r : GradeRecord) : List (Option ℚ × ℚ) :=
  [(r.a_pct, 4), (r.a_minus_pct, 3.7), (r.a_plus_pct, 4),
   (r.b_pct, 3), (r.b_minus_pct, 2.7), (r.b_plus_pct, 3.3),
   (r.c_pct, 2), (r.c_minus_pct, 1.7), (r.c_plus_pct, 2.3),
   (r.d_pct, 1), (r.d_minus_pct, 0.7), (r.d_plus_pct, 1.3),
   (r.f_pct, 0), (r.withdrawn_failing_pct, 0)]

/-- Modelled from the specification text of claim C2: the weighted average
over the fourteen-entry map, each mapped percentage divided by the sum of
the mapped percentages. -/
def spec_gpa_estimate (r : GradeRecord) : ℚ :=
  ((specMappedCols r).foldl (fun acc p => acc + val0 p.1 * p.2) 0)
    / ((specMappedCols r).foldl (fun acc p => acc + val0 p.1) 0)

def pass_only : GradeRecord := { noGrades with pass_pct := some 100 }

def all_f : GradeRecord := { noGrades with f_pct := some 100 }

def only_a_100 : GradeRecord := { noGrades with a_pct := some 100 }

def half_a_half_f : GradeRecord := { noGrades with a_pct := some 50, f_pct := some 50 }

def half_a_half_e : GradeRecord := { noGrades with a_pct := some 50, e_pct := some 50 }

theorem normCell_of_ne (S : ℚ) (hS : S ≠ 0) (c : Option ℚ) :
    normCell S c = val0 c / S := by
  cases c <;> simp [normCell, val0, hS]

theorem foldl_weighted_div (S : ℚ) (l : List (Option ℚ × ℚ)) (a : ℚ) :
    l.foldl (fun acc p => acc + val0 p.1 / S * p.2) (a / S)
      = (l.foldl (fun acc p => acc + val0 p.1 * p.2) a) / S := by
  induction l generalizing a with
  | nil => simp
  | cons p t ih =>
    simp only [List.foldl_cons]
    rw [← ih]
    congr 1
    ring

/-- C1 counterexample: a record whose mapped grade columns are all missing
(only `pass_pct = 100`) receives `gpa_estimate` exactly `0`, the very value a
legitimate all-F section receives — there is no distinguishable sentinel. -/
theorem c1_counterexample :
    gpa_estimate pass_only = 0 ∧ gpa_estimate pass_only = gpa_estimate all_f :=
  ⟨by norm_num [gpa_estimate, sum_of_reported_pct, weightedSum, spec_gpa_estimate, mappedCols, specMappedCols, normCell, val0, pass_only, all_f, only_a_100, half_a_half_f, half_a_half_e, noGrades], by norm_num [gpa_estimate, sum_of_reported_pct, weightedSum, spec_gpa_estimate, mappedCols, specMappedCols, normCell, val0, pass_only, all_f, only_a_100, half_a_half_f, half_a_half_e, noGrades]⟩

/-- C1 amended: for every record whose mapped percentage sum is zero, the
code stores the plain value `0` for the estimate — equal to the estimate of
an all-F section, hence not distinguishable from a legitimately computed
zero GPA. -/
theorem c1_zero_sum_estimate (r : GradeRecord) (h : sum_of_reported_pct r = 0) :
    gpa_estimate r = 0 ∧ gpa_estimate r = gpa_estimate all_f := by
  have h0 : gpa_estimate r = 0 := by
    simp [gpa_estimate, mappedCols, normCell, h]
  exact ⟨h0, by rw [h0]; norm_num [gpa_estimate, sum_of_reported_pct, weightedSum, spec_gpa_estimate, mappedCols, specMappedCols, normCell, val0, pass_only, all_f, only_a_100, half_a_half_f, half_a_half_e, noGrades]⟩

theorem c1_zero_sum_estimate_witness :
    sum_of_reported_pct pass_only = 0
    ∧ (gpa_estimate pass_only = 0 ∧ gpa_estimate pass_only = gpa_estimate all_f) :=
  ⟨by norm_num [gpa_estimate, sum_of_reported_pct, weightedSum, spec_gpa_estimate, mappedCols, specMappedCols, normCell, val0, pass_only, all_f, only_a_100, half_a_half_f, half_a_half_e, noGrades], c1_zero_sum_estimate pass_only (by norm_num [gpa_estimate, sum_of_reported_pct, weightedSum, spec_gpa_estimate, mappedCols, specMappedCols, normCell, val0, pass_only, all_f, only_a_100, half_a_half_f, half_a_half_e, noGrades])⟩

/-- C2 counterexample: the code's point map also contains `e_pct` (with value
0), so for a record with `a_pct = 50, e_pct = 50` the code produces 2, while
the weighted average over exactly the claim's fourteen-entry map (E excluded
from numerator and denominator) would be 4. -/
theorem c2_counterexample :
    gpa_estimate half_a_half_e = 2
    ∧ spec_gpa_estimate half_a_half_e = 4
    ∧ gpa_estimate half_a_half_e ≠ spec_gpa_estimate half_a_half_e :=
  ⟨by norm_num [gpa_estimate, sum_of_reported_pct, weightedSum, spec_gpa_estimate, mappedCols, specMappedCols, normCell, val0, pass_only, all_f, only_a_100, half_a_half_f, half_a_half_e, noGrades], by norm_num [gpa_estimate, sum_of_reported_pct, weightedSum, spec_gpa_estimate, mappedCols, specMappedCols, normCell, val0, pass_only, all_f, only_a_100, half_a_half_f, half_a_half_e, noGrades], by norm_num [gpa_estimate, sum_of_reported_pct, weightedSum, spec_gpa_estimate, mappedCols, specMappedCols, normCell, val0, pass_only, all_f, only_a_100, half_a_half_f, half_a_half_e, noGrades]⟩

/-- C2 amended: for every record with positive mapped sum `S`, the estimate
equals the percentage-weighted average over the code's fifteen-entry point
map — the claim's fourteen entries plus `E = 0.0` (an F-equivalent grade that
counts in the denominator) — each mapped percentage divided by `S` before the
dot product; unmapped categories enter neither numerator nor denominator, and
the two spec examples `a_pct=100 ↦ 4` and `a_pct=50, f_pct=50 ↦ 2` hold. -/
theorem c2_weighted_average (r : GradeRecord) (h : sum_of_reported_pct r ≠ 0) :
    gpa_estimate r = weightedSum r / sum_of_reported_pct r
    ∧ gpa_estimate only_a_100 = 4 ∧ gpa_estimate half_a_half_f = 2 := by
  refine ⟨?_, by norm_num [gpa_estimate, sum_of_reported_pct, weightedSum, spec_gpa_estimate, mappedCols, specMappedCols, normCell, val0, pass_only, all_f, only_a_100, half_a_half_f, half_a_half_e, noGrades], by norm_num [gpa_estimate, sum_of_reported_pct, weightedSum, spec_gpa_estimate, mappedCols, specMappedCols, normCell, val0, pass_only, all_f, only_a_100, half_a_half_f, half_a_half_e, noGrades]⟩
  have hf : (fun (acc : ℚ) (p : Option ℚ × ℚ) =>
        acc + normCell (sum_of_reported_pct r) p.1 * p.2)
      = fun acc p => acc + val0 p.1 / sum_of_reported_pct r * p.2 := by
    funext acc p
    rw [normCell_of_ne (sum_of_reported_pct r) h p.1]
  have hz : (0 : ℚ) = 0 / sum_of_reported_pct r := by simp
  rw [gpa_estimate, hf, hz, foldl_weighted_div]
  rw [weightedSum]

theorem c2_weighted_average_witness :
    sum_of_reported_pct half_a_half_f ≠ 0
    ∧ (gpa_estimate half_a_half_f
        = weightedSum half_a_half_f / sum_of_reported_pct half_a_half_f
      ∧ gpa_estimate only_a_100 = 4 ∧ gpa_estimate half_a_half_f = 2) :=
  ⟨by norm_num [gpa_estimate, sum_of_reported_pct, weightedSum, spec_gpa_estimate, mappedCols, specMappedCols, normCell, val0, pass_only, all_f, only_a_100, half_a_half_f, half_a_half_e, noGrades], c2_weighted_average half_a_half_f (by norm_num [gpa_estimate, sum_of_reported_pct, weightedSum, spec_gpa_estimate, mappedCols, specMappedCols, normCell, val0, pass_only, all_f, only_a_100, half_a_half_f, half_a_half_e, noGrades])⟩

/-! ## DedupLoader

Python source (QueriableStorage/store_db.py, `create_new_database`): the
loader deletes any existing database file, creates the `grades` table, then
iterates over the aggregated records. A record whose `Course Number` is
`None` or not `int`-parseable is counted as invalid and skipped; otherwise
its natural-key fingerprint `(subject, course_num_int, academic_period,
instructor)` is looked up in an in-memory set — if already seen the record
is counted as a duplicate and skipped, else the fingerprint is added and the
record tuple is queued for the batch insert. -/

/-- Python `int(s)` on a string: optional sign followed by digits;
anything else raises (modelled as `none`). -/
def python_int (s : String) : Option Int :=
  match s.data with
  | '-' :: rest =>
    if rest ≠ [] ∧ rest.all Char.isDigit then some (-(natOfDigits rest : Int)) else none
  | '+' :: rest =>
    if rest ≠ [] ∧ rest.all Char.isDigit then some ((natOfDigits rest : Int)) else none
  | cs =>
    if cs ≠ [] ∧ cs.all Char.isDigit then some ((natOfDigits cs : Int)) else none

/-- One aggregated JSON record as the loader reads it: the keys accessed via
`record.get(...)`, each possibly missing. -/
structure InputRecord where
  subject : Option String
  subject_desc : Option String
  course_number : Option String
  title : Option String
  academic_period : Option String
  instructor : Option String
  a_plus_pct : Option ℚ
  a_pct : Option ℚ
  a_minus_pct : Option ℚ
  b_plus_pct : Option ℚ
  b_pct : Option ℚ
  b_minus_pct : Option ℚ
  c_plus_pct : Option ℚ
  c_pct : Option ℚ
  c_minus_pct : Option ℚ
  d_plus_pct : Option ℚ
  d_pct : Option ℚ
  d_minus_pct : Option ℚ
  f_pct : Option ℚ
  withdrawn_failing_pct : Option ℚ
  gpa_estimate_normalized : Option ℚ
deriving DecidableEq

/-- The natural-key fingerprint `(subject, course_num_int, academic_period,
instructor)`; a missing component is an ordinary tuple entry (`None` in the
Python tuple). -/
structure Fingerprint where
  subject : Option String
  course_number : Int
  academic_period : Option String
  instructor : Option String
deriving DecidableEq

/-- A row of the `grades` table as queued by `record_tuple`. -/
structure StoredRow where
  subject : Option String
  subject_desc : Option String
  course_number : Int
  title : Option String
  academic_period : Option String
  instructor : Option String
  a_plus_pct : Option ℚ
  a_pct : Option ℚ
  a_minus_pct : Option ℚ
  b_plus_pct : Option ℚ
  b_pct : Option ℚ
  b_minus_pct : Option ℚ
  c_plus_pct : Option ℚ
  c_pct : Option ℚ
  c_minus_pct : Option ℚ
  d_plus_pct : Option ℚ
  d_pct : Option ℚ
  d_minus_pct : Option ℚ
  f_pct : Option ℚ
  withdrawn_failing_pct : Option ℚ
  gpa_estimate_normalized : Option ℚ
deriving DecidableEq

def mkRow (r : InputRecord) (n : Int) : StoredRow :=
  ⟨r.subject, r.subject_desc, n, r.title, r.academic_period, r.instructor,
   r.a_plus_pct, r.a_pct, r.a_minus_pct, r.b_plus_pct, r.b_pct, r.b_minus_pct,
   r.c_plus_pct, r.c_pct, r.c_minus_pct, r.d_plus_pct, r.d_pct, r.d_minus_pct,
   r.f_pct, r.withdrawn_failing_pct, r.gpa_estimate_normalized⟩

def rowFp (row : StoredRow) : Fingerprint :=
  ⟨row.subject, row.course_number, row.academic_period, row.instructor⟩

/-- The stored row a record would produce, or `none` when its course number
is missing or not `int`-parseable (the skipped-invalid case). -/
def validRow (r : InputRecord) : Option StoredRow :=
  (r.course_number.bind python_int).map (mkRow r)

/-- The loader's loop state: the in-memory fingerprint set (as the list of
fingerprints added so far), the queued insert tuples in order, and the two
skip counters. -/
structure LoadState where
  seen : List Fingerprint
  rows : List StoredRow
  skipped_invalid : Nat
  skipped_duplicate : Nat
deriving DecidableEq

def processRecord (st : LoadState) (r : InputRecord) : LoadState :=
  match validRow r with
  | none => { st with skipped_invalid := st.skipped_invalid + 1 }
  | some row =>
    if rowFp row ∈ st.seen then
      { st with skipped_duplicate := st.skipped_duplicate + 1 }
    else
      { st with seen := rowFp row :: st.seen, rows := st.rows ++ [row] }

/-- The whole cleaning-and-insertion loop of `create_new_database`: the final
`rows` field is the batch handed to `executemany`, i.e. the content of the
freshly built `grades` table (in insert order), and the counters are the
reported skip totals. -/
def create_new_database (data : List InputRecord) : LoadState :=
  data.foldl processRecord ⟨[], [], 0, 0⟩

/-- The surviving rows, described recursively: a record is dropped when
invalid or when its fingerprint was already taken, otherwise kept. -/
def dedupSpec (seen : List Fingerprint) : List InputRecord → List StoredRow
  | [] => []
  | r :: rs =>
    match validRow r with
    | none => dedupSpec seen rs
    | some row =>
      if rowFp row ∈ seen then dedupSpec seen rs
      else row :: dedupSpec (rowFp row :: seen) rs

/-- Duplicate count, described recursively alongside `dedupSpec`. -/
def dupCount (seen : List Fingerprint) : List InputRecord → Nat
  | [] => 0
  | r :: rs =>
    match validRow r with
    | none => dupCount seen rs
    | some row =>
      if rowFp row ∈ seen then dupCount seen rs + 1
      else dupCount (rowFp row :: seen) rs

theorem foldl_processRecord_rows (data : List InputRecord) (st : LoadState) :
    (data.foldl processRecord st).rows = st.rows ++ dedupSpec st.seen data := by
  induction data generalizing st with
  | nil => simp [dedupSpec]
  | cons r rs ih =>
    simp only [List.foldl_cons, dedupSpec]
    cases hv : validRow r with
    | none =>
      rw [ih]
      simp [processRecord, hv]
    | some row =>
      by_cases hm : rowFp row ∈ st.seen
      · rw [ih]
        simp [processRecord, hv, hm]
      · rw [ih]
        simp [processRecord, hv, hm]

theorem foldl_processRecord_dup (data : List InputRecord) (st : LoadState) :
    (data.foldl processRecord st).skipped_duplicate
      = st.skipped_duplicate + dupCount st.seen data := by
  induction data generalizing st with
  | nil => simp [dupCount]
  | cons r rs ih =>
    simp only [List.foldl_cons, dupCount]
    cases hv : validRow r with
    | none =>
      rw [ih]
      simp [processRecord, hv]
    | some row =>
      by_cases hm : rowFp row ∈ st.seen
      · rw [ih]
        simp [processRecord, hv, hm]
        omega
      · rw [ih]
        simp [processRecord, hv, hm]

theorem dedupSpec_filter_seen (fp : Fingerprint) (l : List InputRecord)
    (seen : List Fingerprint) (h : fp ∈ seen) :
    (dedupSpec seen l).filter (fun row => rowFp row = fp) = [] := by
  induction l generalizing seen with
  | nil => simp [dedupSpec]
  | cons r rs ih =>
    simp only [dedupSpec]
    cases hv : validRow r with
    | none => exact ih seen h
    | some row =>
      by_cases hm : rowFp row ∈ seen
      · simp only [if_pos hm]
        exact ih seen h
      · simp only [if_neg hm]
        have hne : ¬ (rowFp row = fp) := fun he => hm (he ▸ h)
        rw [List.filter_cons_of_neg (by simpa using hne)]
        exact ih (rowFp row :: seen) (List.mem_cons_of_mem _ h)

theorem dedupSpec_first_wins (fp : Fingerprint) (l : List InputRecord)
    (seen : List Fingerprint) (h : fp ∉ seen) :
    (dedupSpec seen l).filter (fun row => rowFp row = fp)
      = ((l.filterMap validRow).filter (fun row => rowFp row = fp)).take 1 := by
  induction l generalizing seen with
  | nil => simp [dedupSpec]
  | cons r rs ih =>
    simp only [dedupSpec, List.filterMap_cons]
    cases hv : validRow r with
    | none => exact ih seen h
    | some row =>
      by_cases hm : rowFp row ∈ seen
      · simp only [if_pos hm]
        have hne : ¬ (rowFp row = fp) := fun he => h (he ▸ hm)
        rw [List.filter_cons_of_neg (by simpa using hne)]
        exact ih seen h
      · simp only [if_neg hm]
        by_cases heq : rowFp row = fp
        · rw [List.filter_cons_of_pos (by simpa using heq),
            List.filter_cons_of_pos (by simpa using heq)]
          simp only [List.take_succ_cons, List.take_zero]
          rw [dedupSpec_filter_seen fp rs (rowFp row :: seen) (by simp [heq])]
        · rw [List.filter_cons_of_neg (by simpa using heq),
            List.filter_cons_of_neg (by simpa using heq)]
          refine ih (rowFp row :: seen) ?_
          intro hin
          rcases List.mem_cons.mp hin with h1 | h2
          · exact heq h1.symm
          · exact h h2

theorem dupCount_add_dedup_length (l : List InputRecord) (seen : List Fingerprint) :
    dupCount seen l + (dedupSpec seen l).length = (l.filterMap validRow).length := by
  induction l generalizing seen with
  | nil => simp [dedupSpec, dupCount]
  | cons r rs ih =>
    simp only [dedupSpec, dupCount, List.filterMap_cons]
    cases hv : validRow r with
    | none => exact ih seen
    | some row =>
      by_cases hm : rowFp row ∈ seen
      · simp only [if_pos hm, List.length_cons]
        have := ih seen
        omega
      · simp only [if_neg hm, List.length_cons]
        have := ih (rowFp row :: seen)
        omega

theorem foldl_processRecord_invalid (data : List InputRecord) (st : LoadState) :
    (data.foldl processRecord st).skipped_invalid
      = st.skipped_invalid + data.countP (fun r => (validRow r).isNone) := by
  induction data generalizing st with
  | nil => simp
  | cons r rs ih =>
    simp only [List.foldl_cons, List.countP_cons]
    cases hv : validRow r with
    | none =>
      rw [ih]
      simp [processRecord, hv]
      omega
    | some row =>
      by_cases hm : rowFp row ∈ st.seen
      · rw [ih]
        simp [processRecord, hv, hm]
      · rw [ih]
        simp [processRecord, hv, hm]

theorem dedupSpec_skips_invalid (r : InputRecord) (h : validRow r = none)
    (pre post : List InputRecord) (seen : List Fingerprint) :
    dedupSpec seen (pre ++ r :: post) = dedupSpec seen (pre ++ post) := by
  induction pre generalizing seen with
  | nil => simp [dedupSpec, h]
  | cons q qs ih =>
    simp only [List.cons_append, dedupSpec]
    cases hq : validRow q with
    | none => exact ih seen
    | some row =>
      by_cases hm : rowFp row ∈ seen
      · simp only [if_pos hm]
        exact ih seen
      · simp only [if_neg hm]
        exact congrArg (fun t => row :: t) (ih (rowFp row :: seen))

def baseRec : InputRecord :=
  ⟨some "CS", some "Comp Sci", some "180", some "Prog I", some "Fall 2022", some "Smith",
   none, none, none, none, none, none, none, none, none, none, none, none, none, none, none⟩

def dupRec : InputRecord := { baseRec with a_pct := some 50 }

def invalidRec : InputRecord := { baseRec with course_number := some "N/A" }

/-- C3: whenever the aggregated input holds two or more valid records with
the same natural-key fingerprint, the rows handed to the batch insert hold
exactly one row with that fingerprint — the first such record in aggregation
order — and the skipped-duplicate counter accounts for every valid record
that did not survive deduplication. -/
theorem c3_dedup_first_wins (data : List InputRecord) (fp : Fingerprint)
    (h2 : 2 ≤ ((data.filterMap validRow).filter (fun row => rowFp row = fp)).length) :
    ((create_new_database data).rows.filter (fun row => rowFp row = fp))
      = ((data.filterMap validRow).filter (fun row => rowFp row = fp)).take 1
    ∧ ((create_new_database data).rows.filter (fun row => rowFp row = fp)).length = 1
    ∧ (create_new_database data).skipped_duplicate
        + (create_new_database data).rows.length = (data.filterMap validRow).length := by
  have hrows : (create_new_database data).rows = dedupSpec [] data := by
    rw [create_new_database, foldl_processRecord_rows]
    rfl
  have hfw := dedupSpec_first_wins fp data [] (by simp)
  refine ⟨?_, ?_, ?_⟩
  · rw [hrows]
    exact hfw
  · rw [hrows, hfw, List.length_take]
    omega
  · have hd := dupCount_add_dedup_length data []
    rw [hrows, create_new_database, foldl_processRecord_dup]
    simpa using hd

theorem c3_dedup_first_wins_witness :
    2 ≤ ((([baseRec, dupRec].filterMap validRow).filter
        (fun row => rowFp row = ⟨some "CS", 180, some "Fall 2022", some "Smith"⟩)).length)
    ∧ (((create_new_database [baseRec, dupRec]).rows.filter
        (fun row => rowFp row = ⟨some "CS", 180, some "Fall 2022", some "Smith"⟩))
        = ((([baseRec, dupRec].filterMap validRow).filter
            (fun row => rowFp row = ⟨some "CS", 180, some "Fall 2022", some "Smith"⟩)).take 1)
      ∧ (((create_new_database [baseRec, dupRec]).rows.filter
          (fun row => rowFp row = ⟨some "CS", 180, some "Fall 2022", some "Smith"⟩)).length = 1)
      ∧ (create_new_database [baseRec, dupRec]).skipped_duplicate
          + (create_new_database [baseRec, dupRec]).rows.length
          = ([baseRec, dupRec].filterMap validRow).length) :=
  ⟨by decide, c3_dedup_first_wins [baseRec, dupRec]
    ⟨some "CS", 180, some "Fall 2022", some "Smith"⟩ (by decide)⟩

/-- C6: a record whose course number is missing or not integer-parseable is
skipped — the rows handed to the insert are exactly those obtained without
the record, no row with a null or zero key is produced for it, the
skipped-invalid counter is incremented once for it, and the remaining
records before and after it are processed unchanged. -/
theorem c6_invalid_skipped (pre post : List InputRecord) (r : InputRecord)
    (h : r.course_number.bind python_int = none) :
    (create_new_database (pre ++ r :: post)).rows
      = (create_new_database (pre ++ post)).rows
    ∧ (create_new_database (pre ++ r :: post)).skipped_invalid
      = (create_new_database (pre ++ post)).skipped_invalid + 1 := by
  have hv : validRow r = none := by
    rw [validRow, h]
    rfl
  constructor
  · rw [create_new_database, create_new_database, foldl_processRecord_rows,
      foldl_processRecord_rows]
    rw [dedupSpec_skips_invalid r hv pre post]
  · rw [create_new_database, create_new_database, foldl_processRecord_invalid,
      foldl_processRecord_invalid]
    simp [List.countP_append, List.countP_cons, hv]
    omega

theorem c6_invalid_skipped_witness :
    (invalidRec.course_number.bind python_int = none)
    ∧ ((create_new_database ([] ++ invalidRec :: [baseRec])).rows
        = (create_new_database ([] ++ [baseRec])).rows
      ∧ (create_new_database ([] ++ invalidRec :: [baseRec])).skipped_invalid
        = (create_new_database ([] ++ [baseRec])).skipped_invalid + 1) :=
  ⟨by decide, c6_invalid_skipped [] [baseRec] invalidRec (by decide)⟩

/-- C10: a missing instructor is an ordinary fingerprint component — two
records that both have a null instructor and agree on subject, parsed course
number and academic period collide in the in-memory seen-fingerprint set, so
only the first is queued for insertion and the second is counted as a
duplicate, before any database uniqueness constraint is involved. -/
theorem c10_null_instructor_dedup (r1 r2 : InputRecord) (n : Int)
    (h1 : r1.instructor = none) (h2 : r2.instructor = none)
    (hs : r1.subject = r2.subject)
    (hn1 : r1.course_number.bind python_int = some n)
    (hn2 : r2.course_number.bind python_int = some n)
    (hp : r1.academic_period = r2.academic_period) :
    (create_new_database [r1, r2]).rows = [mkRow r1 n]
    ∧ (create_new_database [r1, r2]).skipped_duplicate = 1 := by
  have hv1 : validRow r1 = some (mkRow r1 n) := by
    rw [validRow, hn1]
    rfl
  have hv2 : validRow r2 = some (mkRow r2 n) := by
    rw [validRow, hn2]
    rfl
  have hfp : rowFp (mkRow r2 n) = rowFp (mkRow r1 n) := by
    simp [rowFp, mkRow, hs, hp, h1, h2]
  constructor
  · simp [create_new_database, processRecord, hv1, hv2, hfp]
  · simp [create_new_database, processRecord, hv1, hv2, hfp]

def nullInstr1 : InputRecord := { baseRec with instructor := none }

def nullInstr2 : InputRecord := { baseRec with instructor := none, a_pct := some 50 }

theorem c10_null_instructor_dedup_witness :
    (nullInstr1.instructor = none ∧ nullInstr2.instructor = none
      ∧ nullInstr1.subject = nullInstr2.subject
      ∧ nullInstr1.course_number.bind python_int = some 180
      ∧ nullInstr2.course_number.bind python_int = some 180
      ∧ nullInstr1.academic_period = nullInstr2.academic_period)
    ∧ ((create_new_database [nullInstr1, nullInstr2]).rows = [mkRow nullInstr1 180]
      ∧ (create_new_database [nullInstr1, nullInstr2]).skipped_duplicate = 1) :=
  ⟨⟨rfl, rfl, rfl, by decide, by decide, rfl⟩,
    c10_null_instructor_dedup nullInstr1 nullInstr2 180
      rfl rfl rfl (by decide) (by decide) rfl⟩

/-- One invocation of `create_new_database` as a transition on the store
file (`none` = absent). A missing input JSON returns early with the store
untouched; otherwise the existing store file, if any, is removed
(`os.remove`) and a fresh store is built from the input records alone, so
the resulting store does not depend on the previous one. -/
def run_loader (store : Option LoadState) (json : Option (List InputRecord)) :
    Option LoadState :=
  match json with
  | none => store
  | some data => some (create_new_database data)

/-- C7: the loader rebuilds the store destructively, so a second run on
identical input leaves the store exactly as after the first run, the result
never depends on the pre-existing store file, and the final store content is
the deterministic function `create_new_database` of the input. -/
theorem c7_idempotent_rebuild (store other : Option LoadState)
    (data : List InputRecord) :
    run_loader (run_loader store (some data)) (some data) = run_loader store (some data)
    ∧ run_loader store (some data) = run_loader other (some data)
    ∧ run_loader store (some data) = some (create_new_database data) :=
  ⟨rfl, rfl, rfl⟩

/-! ## RecordAggregator

Python source (Scripts/CombineAllJSON.py, lines 3-10):
```
combined_data = []
for i in range(1, 11):
    filename = f"cleanedgrades{i}.json"
    with open(filename, "r") as f:
        data = json.load(f)
        combined_data.extend(data)
```
There is no exception handling: a missing file makes `open` raise and an
unparsable file makes `json.load` raise, aborting the whole loop. `fs i` is
the parsed content of `cleanedgrades{i}.json`, `none` when the file is
missing or unparseable; an uncaught exception at file `i` is
`Except.error i`. -/

def combineAux (fs : Nat → Option (List InputRecord)) (acc : List InputRecord) :
    List Nat → Except Nat (List InputRecord)
  | [] => .ok acc
  | i :: is =>
    match fs i with
    | none => .error i
    | some d => combineAux fs (acc ++ d) is

/-- The aggregation loop over `cleanedgrades1.json` … `cleanedgrades10.json`. -/
def combined_data (fs : Nat → Option (List InputRecord)) :
    Except Nat (List InputRecord) :=
  combineAux fs [] (List.range' 1 10)

/-- C9 counterexample: with file 2 missing and every other per-term file
readable, the aggregator raises at file 2 and produces no combined output at
all — not the concatenation of the nine successfully readable files. -/
theorem c9_counterexample :
    combined_data (fun i => if i = 2 then none else some [baseRec]) = .error 2
    ∧ combined_data (fun i => if i = 2 then none else some [baseRec])
        ≠ .ok (List.replicate 9 baseRec) := by
  constructor
  · rfl
  · intro h
    rw [show combined_data (fun i => if i = 2 then none else some [baseRec])
        = .error 2 from rfl] at h
    exact Except.noConfusion h

theorem combineAux_error (fs : Nat → Option (List InputRecord)) (j : Nat)
    (hfail : fs j = none) (post : List Nat) :
    ∀ (pre : List Nat) (acc : List InputRecord), (∀ i ∈ pre, (fs i).isSome) →
      combineAux fs acc (pre ++ j :: post) = .error j := by
  intro pre
  induction pre with
  | nil =>
    intro acc _
    simp [combineAux, hfail]
  | cons i is ih =>
    intro acc hok
    have hi : (fs i).isSome := hok i (List.mem_cons_self i is)
    obtain ⟨d, hd⟩ := Option.isSome_iff_exists.mp hi
    simp only [List.cons_append, combineAux, hd]
    exact ih (acc ++ d) (fun m hm => hok m (List.mem_cons_of_mem i hm))

/-- C9 amended: a missing or unparseable per-term file is not isolated — the
aggregation loop aborts at the first failing file: when every file before
index `j` reads successfully and file `j` fails, the run raises at `j`,
processing none of the later files and producing no combined output. -/
theorem c9_abort_on_bad_file (fs : Nat → Option (List InputRecord))
    (pre post : List Nat) (j : Nat)
    (hsplit : List.range' 1 10 = pre ++ j :: post)
    (hok : ∀ i ∈ pre, (fs i).isSome)
    (hfail : fs j = none) :
    combined_data fs = .error j := by
  rw [combined_data, hsplit]
  exact combineAux_error fs j hfail post pre [] hok

theorem c9_abort_on_bad_file_witness :
    (List.range' 1 10 = [1] ++ 2 :: [3, 4, 5, 6, 7, 8, 9, 10]
      ∧ (∀ i ∈ [1], ((fun k => if k = 2 then none
          else some ([] : List InputRecord)) i).isSome)
      ∧ (fun k => if k = 2 then none else some ([] : List InputRecord)) 2 = none)
    ∧ combined_data (fun k => if k = 2 then none else some ([] : List InputRecord))
        = .error 2 :=
  ⟨⟨by decide, by intro i hi; simp at hi; subst hi; decide, rfl⟩,
    c9_abort_on_bad_file (fun k => if k = 2 then none else some ([] : List InputRecord))
      [1] [3, 4, 5, 6, 7, 8, 9, 10] 2 (by decide)
      (by intro i hi; simp at hi; subst hi; decide) rfl⟩
